import Mathlib

/-
Verification development for the TEZ embedded-archive library.

The C++ sources (tez_archive.cc, tez_file.cc, tez.hh) are shallowly embedded
here.  Byte sequences are `List Nat` (each element a byte value).  The
underlying executable file is a byte list; physical reads through the shared
reader become bounds-checked slices (`readAt`), matching the C++ streams whose
exception mask turns any short read into a thrown error.  C++ exceptions become
`Except`; the mutable `TEZ::archive` object becomes an explicit `Archive` value
threaded through the initialization pipeline, so that the partial state at the
moment an exception is thrown is visible to the `catch`/`purge` handler, as in
`TEZ::archive::init`.
-/

set_option maxRecDepth 4000

abbrev Bytes := List Nat

/-- Little-endian 32-bit load, as `get_uint32` in tez_archive.cc (out-of-range
bytes read as 0; every use in the development is in bounds). -/
def get_uint32 (l : Bytes) (i : Nat) : Nat :=
  l.getD i 0 + l.getD (i+1) 0 * 256 + l.getD (i+2) 0 * 65536 + l.getD (i+3) 0 * 16777216

/-- Little-endian 16-bit load, as `get_uint16` in tez_archive.cc. -/
def get_uint16 (l : Bytes) (i : Nat) : Nat :=
  l.getD i 0 + l.getD (i+1) 0 * 256

/-- Read `len` bytes at absolute offset `off`.  The archive's istream has
failbit/badbit/eofbit exceptions enabled, so a short read throws; here it is
`none`. -/
def readAt (bytes : Bytes) (off len : Nat) : Option Bytes :=
  if off + len ≤ bytes.length then some ((bytes.drop off).take len) else none

/-- One entry of the archive: the fields of `TEZ::file` (tez.hh).  `filename`
is `none` until the name-assignment pass after the central directory loop runs
(the C++ field is an unset pointer until then). -/
structure TEZfile where
  offset : Nat
  crc32 : Nat
  compressed_size : Nat
  uncompressed_size : Nat
  filename : Option Bytes
  comment : Option Bytes
  method : Nat
  deriving DecidableEq, Repr, Inhabited

/-- The error conditions thrown by the C++ code (each `throw` site gets one
constructor). -/
inductive ZErr where
  | tooLarge
  | tooSmall
  | notAZipfile
  | multipart
  | corruptedCD
  | incompatVersion
  | encrypted
  | dataDescriptors
  | badFlags
  | badMethod
  | fileHeaderCorrupted
  | ioError
  | notFound
  deriving DecidableEq, Repr

/-- The mutable state of `TEZ::archive` that the claims are about: entry count,
entry table, name-to-index map, archive comment. -/
structure Archive where
  file_count : Nat
  entries : List TEZfile
  file_map : List (Bytes × Nat)
  comment : Option Bytes
  deriving DecidableEq, Repr

/-- The freshly-constructed or purged archive state. -/
def emptyArchive : Archive := ⟨0, [], [], none⟩

/-- `TEZ::archive::purge`: resets every field to the empty state. -/
def Archive.purge (_a : Archive) : Archive := ⟨0, [], [], none⟩

def Archive.size (a : Archive) : Nat := a.file_count

def Archive.empty (a : Archive) : Bool := a.file_count == 0

/-- Lookup in the name-to-index map (`std::unordered_map::find`; an
association list with unique keys models it, first matching key wins). -/
def lookupName : List (Bytes × Nat) → Bytes → Option Nat
  | [], _ => none
  | p :: r, n => if p.1 = n then some p.2 else lookupName r n

/-- The `file_map.emplace` loop of `read_central_directory`:
`std::unordered_map::emplace` inserts only when the key is absent, so the
first (lowest-index) occurrence of a duplicate filename wins. -/
def emplaceAll : List Bytes → Nat → List (Bytes × Nat) → List (Bytes × Nat)
  | [], _, m => m
  | n :: r, i, m =>
    emplaceAll r (i+1) (match lookupName m n with
      | none => m ++ [(n, i)]
      | some _ => m)

/-- Pointwise update of a list element, for in-place mutation of the entry
array. -/
def listModify (f : α → α) : Nat → List α → List α
  | _, [] => []
  | 0, x :: xs => f x :: xs
  | i+1, x :: xs => x :: listModify f i xs

/-- `TEZ::archive::find` (sentinel-returning by-name lookup); `end()` becomes
`none`, a hit becomes the entry index. -/
def Archive.find (a : Archive) (name : Bytes) : Option Nat :=
  lookupName a.file_map name

/-- The throwing by-name `operator[]` of `TEZ::archive`. -/
def Archive.getByName (a : Archive) (name : Bytes) : Except ZErr TEZfile :=
  match lookupName a.file_map name with
  | none => .error .notFound
  | some i => .ok (a.entries.getD i default)

/-- The bounds-checked positional accessor `TEZ::archive::at`. -/
def Archive.atIdx (a : Archive) (i : Nat) : Except ZErr TEZfile :=
  if i < a.file_count then .ok (a.entries.getD i default) else .error .notFound

/-! ## End-of-central-directory scan (`TEZ::archive::read_eocd`) -/

/-- The window `read_eocd` reads into memory: the final
`min(65535, file_size - 22) + 22` bytes (the code computes
`seek_off = max(0, file_size - 65535 - 22)` and reads everything after it). -/
def eocdWindow (bytes : Bytes) : Bytes :=
  bytes.drop (bytes.length - (min 65535 (bytes.length - 22) + 22))

/-- The scan loop of `read_eocd`: try comment lengths `cl, cl+1, ...` for
`fuel` steps; the first (smallest) comment length whose 4 signature bytes in
the window match `0x06054b50` wins. -/
def scanFrom (w : Bytes) : Nat → Nat → Option Nat
  | 0, _ => none
  | fuel+1, cl =>
    if get_uint32 w (w.length - cl - 22) = 0x06054b50 then some cl
    else scanFrom w fuel (cl+1)

/-- Comment lengths `0 .. maxCL` are tried in increasing order. -/
def findCommentLen (w : Bytes) (maxCL : Nat) : Option Nat :=
  scanFrom w (maxCL + 1) 0

/-- `TEZ::archive::read_eocd`.  Mutations of the archive state (entry count,
entry allocation, archive comment) are threaded explicitly; errors carry the
state at the throw site so `init`'s catch handler can purge it. -/
def read_eocd (bytes : Bytes) (a : Archive) : Except (ZErr × Archive) (Nat × Archive) :=
  if bytes.length < 22 then .error (.tooSmall, a)
  else
    let maxCL := min 65535 (bytes.length - 22)
    let w := eocdWindow bytes
    match findCommentLen w maxCL with
    | none => .error (.notAZipfile, a)
    | some cl =>
      let p := w.length - cl - 22
      if w.getD (p+4) 0 ≠ 0 ∨ w.getD (p+5) 0 ≠ 0 ∨ w.getD (p+6) 0 ≠ 0 ∨ w.getD (p+7) 0 ≠ 0 then
        .error (.multipart, a)
      else
        let fc := get_uint16 w (p+10)
        let cml := get_uint16 w (p+20)
        .ok (get_uint32 w (p+16),
             { a with file_count := fc,
                      entries := List.replicate fc default,
                      comment := some ((w.drop (p+22)).take cml) })

/-! ## Central directory parsing (`TEZ::archive::read_central_directory`) -/

/-- The fields read from one 46-byte central directory record. -/
structure CDInfo where
  method : Nat
  crc32 : Nat
  compressed_size : Nat
  uncompressed_size : Nat
  fl : Nat
  el : Nat
  cl : Nat
  lh_offset : Nat
  deriving DecidableEq, Repr

/-- The per-record validation and field extraction of
`read_central_directory`, in source order: signature, version needed,
general-purpose flag bits 0, 3 and mask 0xF7F0, compression method,
disk number. -/
def parseCDRecord (rec : Bytes) : Except ZErr CDInfo :=
  if get_uint32 rec 0 ≠ 0x02014b50 then .error .corruptedCD
  else if 20 < get_uint16 rec 6 then .error .incompatVersion
  else if get_uint16 rec 8 &&& 1 ≠ 0 then .error .encrypted
  else if get_uint16 rec 8 &&& 8 ≠ 0 then .error .dataDescriptors
  else if get_uint16 rec 8 &&& 0xF7F0 ≠ 0 then .error .badFlags
  else if get_uint16 rec 10 ≠ 0 ∧ get_uint16 rec 10 ≠ 8 then .error .badMethod
  else if 0 < get_uint16 rec 34 then .error .multipart
  else .ok ⟨get_uint16 rec 10, get_uint32 rec 16, get_uint32 rec 20, get_uint32 rec 24,
            get_uint16 rec 28, get_uint16 rec 30, get_uint16 rec 32, get_uint32 rec 42⟩

/-- The record loop of `read_central_directory`.  Note the faithful bug: the
comment bytes of each record are stored into the ARCHIVE's `comment` field
(the C++ writes the bare member `comment`, i.e. `this->comment`, not
`file.comment`), and the entry's own comment is never assigned. -/
def readCDRecords (bytes : Bytes) :
    Nat → Nat → Nat → Archive → List Bytes → Except (ZErr × Archive) (Archive × List Bytes)
  | 0, _fileno, _pos, a, names => .ok (a, names)
  | k+1, fileno, pos, a, names =>
    match readAt bytes pos 46 with
    | none => .error (.ioError, a)
    | some rec =>
      match parseCDRecord rec with
      | .error e => .error (e, a)
      | .ok info =>
        match readAt bytes (pos + 46) info.fl with
        | none => .error (.ioError, a)
        | some fname =>
          match readAt bytes (pos + 46 + info.fl + info.el) info.cl with
          | none => .error (.ioError, a)
          | some cmt =>
            let f : TEZfile :=
              ⟨info.lh_offset, info.crc32, info.compressed_size, info.uncompressed_size,
               none, none, info.method⟩
            readCDRecords bytes k (fileno + 1) (pos + 46 + info.fl + info.el + info.cl)
              { a with entries := listModify (fun _ => f) fileno a.entries,
                       comment := some cmt }
              (names ++ [fname])

/-- The name-assignment pass: each mapped index gets a pointer to the map's
key; duplicate-name entries not present in the map keep an unset filename. -/
def assignNames (entries : List TEZfile) (m : List (Bytes × Nat)) : List TEZfile :=
  m.foldl (fun es p => listModify (fun f => { f with filename := some p.1 }) p.2 es) entries

/-- `TEZ::file::read_header`: verify the local-header signature at `offset`
and compute the data start offset (uint32 arithmetic). -/
def read_header (bytes : Bytes) (offset : Nat) : Except ZErr Nat :=
  match readAt bytes offset 30 with
  | none => .error .ioError
  | some buf =>
    if get_uint32 buf 0 ≠ 0x04034b50 then .error .fileHeaderCorrupted
    else .ok ((offset + 30 + get_uint16 buf 26 + get_uint16 buf 28) % 4294967296)

/-- The eager local-header resolution loop at the end of
`read_central_directory`: each entry's `offset` field is overwritten once with
the resolved data offset. -/
def resolveLoop (bytes : Bytes) : Nat → Nat → Archive → Except (ZErr × Archive) Archive
  | 0, _, a => .ok a
  | k+1, i, a =>
    match read_header bytes ((a.entries.getD i default).offset) with
    | .error e => .error (e, a)
    | .ok newoff =>
      resolveLoop bytes k (i+1)
        { a with entries := listModify (fun f => { f with offset := newoff }) i a.entries }

/-- `TEZ::archive::read_central_directory`. -/
def read_central_directory (bytes : Bytes) (cd_offset : Nat) (a : Archive) :
    Except (ZErr × Archive) Archive :=
  match readCDRecords bytes a.file_count 0 cd_offset a [] with
  | .error p => .error p
  | .ok (a1, names) =>
    let m := emplaceAll names 0 []
    let a2 : Archive := { a1 with file_map := m, entries := assignNames a1.entries m }
    resolveLoop bytes a2.file_count 0 a2

/-- The try-block of `TEZ::archive::init` (after the platform shim opened the
executable): size check, EOCD scan, central directory parse.  Errors carry the
partial archive state at the throw site. -/
def initRun (bytes : Bytes) : Except (ZErr × Archive) Archive :=
  if 4294967295 < bytes.length then .error (.tooLarge, emptyArchive)
  else
    match read_eocd bytes emptyArchive with
    | .error p => .error p
    | .ok (cdoff, a1) => read_central_directory bytes cdoff a1

/-- `TEZ::archive::init` with its catch handler: on any failure the partial
state is purged before the error propagates. -/
def tez_init (bytes : Bytes) : Except ZErr Unit × Archive :=
  match initRun bytes with
  | .ok a => (.ok (), a)
  | .error (e, s) => (.error e, s.purge)

/-- Successful initialization result (`none` when init failed). -/
def initArchive (bytes : Bytes) : Option Archive :=
  match initRun bytes with
  | .ok a => some a
  | .error _ => none

/-- The archive comment after a successful init. -/
def archComment (bytes : Bytes) : Option (Option Bytes) :=
  (initArchive bytes).map (·.comment)

/-- The comment field of entry `i` after a successful init. -/
def entryComment (bytes : Bytes) (i : Nat) : Option (Option Bytes) :=
  (initArchive bytes).map (fun a => (a.entries.getD i default).comment)

/-- Entry `i` after a successful init. -/
def entryAt (bytes : Bytes) (i : Nat) : Option TEZfile :=
  (initArchive bytes).map (fun a => a.entries.getD i default)

/-! ## Stored-data stream (`stored_data_streambuf`, tez_file.cc)

The stream state mirrors the C++ streambuf: `cur_pos` is the physical cursor
(already advanced past the buffered chunk after a refill, exactly as
`underflow` does `cur_pos += amount`), and `geta` is the unconsumed part of
the get area.  `seekpos` faithfully does NOT reset the get area (the C++
override never calls `setg`), which is the source of the stale-read bug. -/

structure StoredBuf where
  start_pos : Nat
  end_pos : Nat
  cur_pos : Nat
  geta : Bytes
  deriving DecidableEq, Repr, Inhabited

/-- `stored_data_streambuf::underflow`: refill the get area with up to 4096
bytes starting at `cur_pos`; `none` is end-of-data. -/
def storedUnderflow (data : Bytes) (s : StoredBuf) : Option StoredBuf :=
  if s.cur_pos = s.end_pos then none
  else
    let amount := min (s.end_pos - s.cur_pos) 4096
    some { s with cur_pos := s.cur_pos + amount,
                  geta := (data.drop s.cur_pos).take amount }

/-- One `sbumpc` against the stored stream: consume from the get area,
refilling it through `underflow` when exhausted. -/
def storedReadByte (data : Bytes) (s : StoredBuf) : Option (Nat × StoredBuf) :=
  match s.geta with
  | b :: r => some (b, { s with geta := r })
  | [] =>
    match storedUnderflow data s with
    | none => none
    | some s' =>
      match s'.geta with
      | b :: r => some (b, { s' with geta := r })
      | [] => none

/-- Read to end-of-data (fuel-bounded driver of `storedReadByte`). -/
def storedReadAll (data : Bytes) : Nat → StoredBuf → Bytes × StoredBuf
  | 0, s => ([], s)
  | f+1, s =>
    match storedReadByte data s with
    | none => ([], s)
    | some (b, s') =>
      let p := storedReadAll data f s'
      (b :: p.1, p.2)

/-- `stored_data_streambuf::seekpos`: clamp the target to
`[0, end_pos - start_pos]` and move `cur_pos`; returns the clamped offset.
Faithfully leaves the get area untouched. -/
def storedSeekpos (s : StoredBuf) (off : Int) : Int × StoredBuf :=
  let size : Int := (s.end_pos : Int) - (s.start_pos : Int)
  let off1 : Int := if off < 0 then 0 else if size < off then size else off
  (off1, { s with cur_pos := s.start_pos + off1.toNat })

/-- `TEZ::file::open`, stored case: a fresh stream over
`[offset, offset + uncompressed_size)` with an empty get area. -/
def TEZfile.openStored (f : TEZfile) : StoredBuf :=
  ⟨f.offset, f.offset + f.uncompressed_size, f.offset, []⟩

/-! ## Deflated stream (`deflated_streambuf`, tez_file.cc)

zlib's `inflate` is an external library, not part of this repository; it is
modelled abstractly and deterministically: the entry decompresses to a fixed
byte sequence `U` (with `uncompressed_size = U.length` for a well-formed
entry), and each `underflow` produces the next chunk of up to 4096 bytes of
`U`.  The CRC32 accumulator is modelled as the list of bytes folded into it so
far together with an abstract checksum function `crcFn` (the C++ folds every
produced byte through zlib's `crc32`); `crc.check` becomes
`crcFn produced = desired`.  The input-side cursor only matters through the
reset-to-start path, which the determinism of `U` captures. -/

structure DefBuf where
  out_cur : Nat
  geta : Bytes
  produced : Bytes
  deriving DecidableEq, Repr, Inhabited

inductive DefErr where
  | checksum
  | ub
  deriving DecidableEq, Repr

/-- `deflated_streambuf::underflow`: produce the next chunk, fold it into the
CRC accumulator, and on the call whose output cursor reaches the end compare
the accumulated CRC with the declared checksum, throwing on mismatch.
`ok none` is end-of-data. -/
def defUnderflow (U : Bytes) (crcFn : Bytes → Nat) (desired : Nat) :
    DefBuf → Except DefErr (Option DefBuf)
  | ⟨oc, _, produced⟩ =>
    if oc = U.length then .ok none
    else if oc + min 4096 (U.length - oc) = U.length ∧
            crcFn (produced ++ (U.drop oc).take (min 4096 (U.length - oc))) ≠ desired then
      .error .checksum
    else
      .ok (some ⟨oc + min 4096 (U.length - oc),
                 (U.drop oc).take (min 4096 (U.length - oc)),
                 produced ++ (U.drop oc).take (min 4096 (U.length - oc))⟩)

/-- One `sbumpc` against the deflated stream. -/
def defReadByte (U : Bytes) (crcFn : Bytes → Nat) (desired : Nat) :
    DefBuf → Except DefErr (Option (Nat × DefBuf))
  | ⟨oc, b :: r, produced⟩ => .ok (some (b, ⟨oc, r, produced⟩))
  | ⟨oc, [], produced⟩ =>
    match defUnderflow U crcFn desired ⟨oc, [], produced⟩ with
    | .error e => .error e
    | .ok none => .ok none
    | .ok (some ⟨oc2, b :: r, produced2⟩) => .ok (some (b, ⟨oc2, r, produced2⟩))
    | .ok (some ⟨_, [], _⟩) => .ok none

/-- Read to end-of-data (fuel-bounded driver of `defReadByte`). -/
def defReadAll (U : Bytes) (crcFn : Bytes → Nat) (desired : Nat) :
    Nat → DefBuf → Except DefErr Bytes
  | 0, _ => .ok []
  | f+1, s =>
    match defReadByte U crcFn desired s with
    | .error e => .error e
    | .ok none => .ok []
    | .ok (some (b, s')) =>
      match defReadAll U crcFn desired f s' with
      | .error e => .error e
      | .ok bs => .ok (b :: bs)

/-- The decode-and-discard loop inside `deflated_streambuf::seekpos`, with the
source's (inverted) continuation condition `out_cur_pos >= off`: call
`underflow`; stop when it reports end-of-data (returning the state unchanged)
or when the new output cursor is still BELOW the target; otherwise keep
decoding. -/
def defSeekLoop (U : Bytes) (crcFn : Bytes → Nat) (desired : Nat) (off : Nat) :
    Nat → DefBuf → Except DefErr DefBuf
  | 0, s => .ok s
  | fuel+1, s =>
    match defUnderflow U crcFn desired s with
    | .error e => .error e
    | .ok none => .ok s
    | .ok (some s') =>
      if off ≤ s'.out_cur then defSeekLoop U crcFn desired off fuel s' else .ok s'

/-- `deflated_streambuf::seekpos`: clamp the target, reset the decompressor
and CRC when seeking backward, clear the get area when already at the target,
otherwise run the decode-and-discard loop; when the loop ends at end-of-data
the function returns the eof sentinel `-1` (which makes `istream::seekg`
fail), and when it ends with the cursor short of the target the overshoot
re-slicing indexes outside the buffer (modelled as the distinguished error
`ub`). -/
def defSeekpos (U : Bytes) (crcFn : Bytes → Nat) (desired : Nat) (s : DefBuf) (off : Int) :
    Except DefErr (Int × DefBuf) :=
  let oend : Int := U.length
  let off1 : Int := if off < 0 then 0 else if oend < off then oend else off
  let s1 : DefBuf := if off1 < (s.out_cur : Int) then ⟨0, s.geta, []⟩ else s
  if off1 = (s1.out_cur : Int) then .ok (off1, { s1 with geta := [] })
  else
    match defSeekLoop U crcFn desired off1.toNat (U.length + 2) s1 with
    | .error e => .error e
    | .ok s2 =>
      if s2.out_cur = U.length then .ok (-1, s2)
      else
        if (s2.out_cur : Int) < off1 then .error .ub
        else .ok ((s2.out_cur : Int),
                  { s2 with geta := s2.geta.drop (s2.geta.length - (s2.out_cur - off1.toNat)) })

/-! ## Concrete archive images used as test vectors -/

/-- A 68-byte image: 46 zero bytes followed by an EOCD record that declares 1
entry and a central directory at offset 0, whose bytes do not start with the
central-directory signature.  Initialization must fail with a
corrupted-central-directory error. -/
def A3bytes : Bytes :=
  [0, 0, 0, 0, 0, 0, 0, 0, 0, 0, 0, 0, 0, 0, 0, 0, 0, 0, 0, 0, 0, 0, 0,
   0, 0, 0, 0, 0, 0, 0, 0, 0, 0, 0, 0, 0, 0, 0, 0, 0, 0, 0, 0, 0, 0, 0,
   80, 75, 5, 6,
   0, 0, 0, 0,
   1, 0,
   1, 0,
   0, 0, 0, 0,
   0, 0, 0, 0,
   0, 0]

/-- A well-formed 99-byte image with one STORED entry named "a" whose central
directory record declares compressed_size 1 but uncompressed_size 2: local
file header at 0, central directory at 30, EOCD at 77. -/
def A9bytes : Bytes :=
  [80, 75, 3, 4,
   0, 0, 0, 0, 0, 0, 0, 0, 0, 0, 0, 0, 0, 0, 0, 0, 0, 0, 0, 0, 0, 0,
   0, 0, 0, 0,
   80, 75, 1, 2,
   0, 0,
   20, 0,
   0, 0,
   0, 0,
   0, 0, 0, 0,
   0, 0, 0, 0,
   1, 0, 0, 0,
   2, 0, 0, 0,
   1, 0,
   0, 0,
   0, 0,
   0, 0,
   0, 0, 0, 0, 0, 0,
   0, 0, 0, 0,
   97,
   80, 75, 5, 6,
   0, 0, 0, 0,
   1, 0,
   1, 0,
   0, 0, 0, 0,
   30, 0, 0, 0,
   0, 0]

/-- A well-formed 101-byte image with one entry named "a": the central
directory record carries the 1-byte comment "c" (99) and the EOCD record
carries the 1-byte archive comment "e" (101).  Local file header at 0,
central directory at 30, EOCD at 78. -/
def A5bytes : Bytes :=
  [80, 75, 3, 4,
   0, 0, 0, 0, 0, 0, 0, 0, 0, 0, 0, 0, 0, 0, 0, 0, 0, 0, 0, 0, 0, 0,
   0, 0, 0, 0,
   80, 75, 1, 2,
   0, 0,
   20, 0,
   0, 0,
   0, 0,
   0, 0, 0, 0,
   0, 0, 0, 0,
   0, 0, 0, 0,
   0, 0, 0, 0,
   1, 0,
   0, 0,
   1, 0,
   0, 0,
   0, 0, 0, 0, 0, 0,
   0, 0, 0, 0,
   97,
   99,
   80, 75, 5, 6,
   0, 0, 0, 0,
   1, 0,
   1, 0,
   0, 0, 0, 0,
   30, 0, 0, 0,
   1, 0,
   101]


/-! ## Claim theorems -/

/-- A 2-byte stored entry used for the C1 counterexample: content bytes
97, 98 at data offset 0. -/
def c1data : Bytes := [97, 98]

def c1entry : TEZfile := ⟨0, 0, 2, 2, none, none, 0⟩

/-- Reading a fresh stored stream to end. -/
def c1FreshRead : Bytes := (storedReadAll c1data 8 c1entry.openStored).1

/-- Reading one byte from a fresh stored stream, then seeking to offset 0,
then reading to end. -/
def c1SeekRead : Bytes :=
  match storedReadByte c1data c1entry.openStored with
  | some (_, s1) => (storedReadAll c1data 8 (storedSeekpos s1 0).2).1
  | none => []

/-- Claim C1: seeking an open stream to a valid offset o after prior reads and
reading to end should yield the suffix of the fresh full read from o; in
particular seeking to 0 after any reads should reproduce the fresh sequence.
The code violates this: `stored_data_streambuf::seekpos` moves `cur_pos` but
never resets the streambuf get area, so the stale buffered bytes are returned
first.  For the 2-byte stored entry [97, 98], read 1 byte, seek to 0, read to
end yields [98, 97, 98] instead of the fresh sequence [97, 98]. -/
theorem tez_C1_restart_stale_buffer :
    c1SeekRead = [98, 97, 98] ∧ c1FreshRead = [97, 98] ∧
    c1SeekRead ≠ List.drop 0 c1FreshRead := by decide

/-- Result of seeking a fresh 2-byte deflated stream (content [104, 105],
matching checksum) to offset 5, which the claim says must clamp to 2 and
succeed; 99 is an impossible marker for the error case. -/
def c4Code : Int :=
  match defSeekpos [104, 105] (fun l => l.length) 2 ⟨0, [], []⟩ 5 with
  | .ok (r, _) => r
  | .error _ => 99

/-- Claim C4: a seek outside [0, uncompressed_size] should succeed with the
position clamped.  For the deflated stream the code violates this: the
decode-and-discard loop in `deflated_streambuf::seekpos` has its continuation
condition inverted (`out_cur_pos >= off`), so after the first chunk covers the
clamped target it keeps decoding until end-of-data and then returns the eof
sentinel -1, making `istream::seekg` fail instead of clamping to 2. -/
theorem tez_C4_seek_returns_eof : c4Code = -1 ∧ c4Code ≠ 2 := by decide

/-- Claim C5: after a successful init the archive comment getter should return
the EOCD comment bytes ([101] in image A5bytes) and the entry comment getter
the entry's central-directory comment bytes ([99]).  The code violates both:
the central-directory loop assigns each record's comment bytes to the bare
member `comment`, i.e. the ARCHIVE's comment (clobbering the EOCD comment read
earlier), and never assigns `file.comment`, so the entry comment stays unset. -/
theorem tez_C5_comment_clobbered :
    archComment A5bytes = some (some [99]) ∧
    archComment A5bytes ≠ some (some [101]) ∧
    entryComment A5bytes 0 = some none := by decide

/-- Claim C9: after a successful initialization every stored entry should have
compressed_size = uncompressed_size, so the assert in `TEZ::file::open` could
never fire.  The parser performs no such validation: image A9bytes, whose
single entry is stored (method 0) with declared compressed_size 1 and
uncompressed_size 2, initializes successfully. -/
theorem tez_C9_stored_sizes_unchecked :
    (entryAt A9bytes 0).isSome = true ∧
    (entryAt A9bytes 0).map TEZfile.method = some 0 ∧
    (entryAt A9bytes 0).map TEZfile.compressed_size ≠
      (entryAt A9bytes 0).map TEZfile.uncompressed_size := by decide

/-- Claim C3: if initialization fails for any reason at any point, the archive
is returned to the empty/unusable state before the error propagates: size() is
0, empty() is true, the entry table, the name-to-index map and the comment are
all discarded.  This holds because `init`'s catch handler purges the partial
state before rethrowing. -/
theorem tez_C3_purge_on_failure (bytes : Bytes) (e : ZErr)
    (h : (tez_init bytes).1 = .error e) :
    (tez_init bytes).2 = emptyArchive ∧
    (tez_init bytes).2.size = 0 ∧
    (tez_init bytes).2.empty = true ∧
    (tez_init bytes).2.entries = [] ∧
    (tez_init bytes).2.file_map = [] ∧
    (tez_init bytes).2.comment = none := by
  cases hr : initRun bytes with
  | ok a =>
    unfold tez_init at h
    rw [hr] at h
    simp at h
  | error p =>
    obtain ⟨e1, s⟩ := p
    unfold tez_init
    rw [hr]
    exact ⟨rfl, rfl, rfl, rfl, rfl, rfl⟩

/-- Witness for C3: the image A3bytes (whose EOCD points the central directory
at bytes that do not start with 0x02014b50) fails initialization with the
corrupted-central-directory error, and the archive afterwards reports size 0
and empty; the partial state built before the throw (file_count 1, one
allocated entry) does not survive. -/
theorem tez_C3_witness :
    (tez_init A3bytes).1 = .error .corruptedCD ∧
    (tez_init A3bytes).2.size = 0 ∧
    (tez_init A3bytes).2.empty = true ∧
    (tez_init A3bytes).2.entries = [] :=
  ⟨rfl, (tez_C3_purge_on_failure A3bytes .corruptedCD rfl).2.1,
        (tez_C3_purge_on_failure A3bytes .corruptedCD rfl).2.2.1,
        (tez_C3_purge_on_failure A3bytes .corruptedCD rfl).2.2.2.1⟩

/-- Soundness of the scan loop: a hit is the first comment length, counting up
from the starting value, whose window position carries the EOCD signature. -/
theorem scanFrom_eq_some (w : Bytes) :
    ∀ fuel cl0 cl, scanFrom w fuel cl0 = some cl →
      cl0 ≤ cl ∧ cl < cl0 + fuel ∧
      get_uint32 w (w.length - cl - 22) = 0x06054b50 ∧
      ∀ c, cl0 ≤ c → c < cl → get_uint32 w (w.length - c - 22) ≠ 0x06054b50 := by
  intro fuel
  induction fuel with
  | zero => intro cl0 cl h; simp [scanFrom] at h
  | succ n ih =>
    intro cl0 cl h
    rw [scanFrom] at h
    split at h
    · cases h
      exact ⟨Nat.le_refl _, by omega, by assumption, fun c h1 h2 => by omega⟩
    · obtain ⟨h1, h2, h3, h4⟩ := ih (cl0 + 1) cl h
      refine ⟨by omega, by omega, h3, fun c hc1 hc2 => ?_⟩
      rcases Nat.eq_or_lt_of_le hc1 with rfl | hlt
      · assumption
      · exact h4 c hlt hc2

/-- Completeness of the scan loop: a miss means no tried comment length had
the signature. -/
theorem scanFrom_eq_none (w : Bytes) :
    ∀ fuel cl0, scanFrom w fuel cl0 = none →
      ∀ c, cl0 ≤ c → c < cl0 + fuel → get_uint32 w (w.length - c - 22) ≠ 0x06054b50 := by
  intro fuel
  induction fuel with
  | zero => intro cl0 _ c h1 h2; omega
  | succ n ih =>
    intro cl0 h c h1 h2
    rw [scanFrom] at h
    split at h
    · cases h
    · rcases Nat.eq_or_lt_of_le h1 with rfl | hlt
      · assumption
      · exact ih (cl0 + 1) h c hlt (by omega)

/-- Claim C6: the EOCD scan reads the final min(65535, length) + 22 bytes of
the file into memory in a single read (here: the window is the suffix cut at
that distance from the end, truncated at the start of the file), tries comment
lengths from 0 upward taking the first position whose 4 bytes equal
0x06054b50, fails with the executable-too-small error when the file is
smaller than 22 bytes, and with the not-a-container error when no signature
occurs anywhere in the searched region. -/
theorem tez_C6_eocd_scan (bytes : Bytes) (a : Archive) :
    (bytes.length < 22 → read_eocd bytes a = .error (.tooSmall, a)) ∧
    (22 ≤ bytes.length →
      eocdWindow bytes = bytes.drop (bytes.length - (min 65535 bytes.length + 22)) ∧
      (eocdWindow bytes).length = min 65535 (bytes.length - 22) + 22 ∧
      (∀ cl, findCommentLen (eocdWindow bytes) (min 65535 (bytes.length - 22)) = some cl →
        cl ≤ min 65535 (bytes.length - 22) ∧
        get_uint32 (eocdWindow bytes) ((eocdWindow bytes).length - cl - 22) = 0x06054b50 ∧
        ∀ c, c < cl →
          get_uint32 (eocdWindow bytes) ((eocdWindow bytes).length - c - 22) ≠ 0x06054b50) ∧
      (findCommentLen (eocdWindow bytes) (min 65535 (bytes.length - 22)) = none →
        (∀ c, c ≤ min 65535 (bytes.length - 22) →
          get_uint32 (eocdWindow bytes) ((eocdWindow bytes).length - c - 22) ≠ 0x06054b50) ∧
        read_eocd bytes a = .error (.notAZipfile, a))) := by
  constructor
  · intro h
    rw [read_eocd, if_pos h]
  · intro h
    refine ⟨?_, ?_, ?_, ?_⟩
    · rw [eocdWindow]
      congr 1
      omega
    · rw [eocdWindow, List.length_drop]
      omega
    · intro cl hcl
      obtain ⟨_, h2, h3, h4⟩ := scanFrom_eq_some _ _ _ _ hcl
      exact ⟨by omega, h3, fun c hc => h4 c (Nat.zero_le _) hc⟩
    · intro hn
      refine ⟨fun c hc => scanFrom_eq_none _ _ _ hn c (Nat.zero_le _) (by omega), ?_⟩
      rw [read_eocd, if_neg (by omega)]
      simp only [hn]

/-- Witness for C6 at the concrete 68-byte image A3bytes: the file is at least
22 bytes, the whole file is the scanned window, and the scan finds the
signature at comment length 0. -/
theorem tez_C6_witness :
    22 ≤ A3bytes.length ∧
    (eocdWindow A3bytes).length = min 65535 (A3bytes.length - 22) + 22 ∧
    findCommentLen (eocdWindow A3bytes) (min 65535 (A3bytes.length - 22)) = some 0 ∧
    get_uint32 (eocdWindow A3bytes) ((eocdWindow A3bytes).length - 0 - 22) = 0x06054b50 :=
  ⟨by decide, ((tez_C6_eocd_scan A3bytes emptyArchive).2 (by decide)).2.1, by decide,
   (((tez_C6_eocd_scan A3bytes emptyArchive).2 (by decide)).2.2.1 0 (by decide)).2.1⟩

/-- Claim C7: for every central-directory record the parser fails with
corruptedCD when the 4-byte signature is not 0x02014b50, incompatVersion when
version-needed-to-extract exceeds 20, distinct errors when flag bit 0
(encryption) is set, when bit 3 (data descriptors) is set, or when any bit of
the mask 0xF7F0 is set, badMethod when the method is neither 0 nor 8, and
multipart when the disk number is nonzero; a record passing all of these
checks is accepted with its fields extracted. -/
theorem tez_C7_cd_record_checks (rec : Bytes) :
    (get_uint32 rec 0 ≠ 0x02014b50 → parseCDRecord rec = .error .corruptedCD) ∧
    (get_uint32 rec 0 = 0x02014b50 → 20 < get_uint16 rec 6 →
      parseCDRecord rec = .error .incompatVersion) ∧
    (get_uint32 rec 0 = 0x02014b50 → get_uint16 rec 6 ≤ 20 →
      get_uint16 rec 8 &&& 1 ≠ 0 → parseCDRecord rec = .error .encrypted) ∧
    (get_uint32 rec 0 = 0x02014b50 → get_uint16 rec 6 ≤ 20 →
      get_uint16 rec 8 &&& 1 = 0 → get_uint16 rec 8 &&& 8 ≠ 0 →
      parseCDRecord rec = .error .dataDescriptors) ∧
    (get_uint32 rec 0 = 0x02014b50 → get_uint16 rec 6 ≤ 20 →
      get_uint16 rec 8 &&& 1 = 0 → get_uint16 rec 8 &&& 8 = 0 →
      get_uint16 rec 8 &&& 0xF7F0 ≠ 0 → parseCDRecord rec = .error .badFlags) ∧
    (get_uint32 rec 0 = 0x02014b50 → get_uint16 rec 6 ≤ 20 →
      get_uint16 rec 8 &&& 1 = 0 → get_uint16 rec 8 &&& 8 = 0 →
      get_uint16 rec 8 &&& 0xF7F0 = 0 → get_uint16 rec 10 ≠ 0 → get_uint16 rec 10 ≠ 8 →
      parseCDRecord rec = .error .badMethod) ∧
    (get_uint32 rec 0 = 0x02014b50 → get_uint16 rec 6 ≤ 20 →
      get_uint16 rec 8 &&& 1 = 0 → get_uint16 rec 8 &&& 8 = 0 →
      get_uint16 rec 8 &&& 0xF7F0 = 0 → (get_uint16 rec 10 = 0 ∨ get_uint16 rec 10 = 8) →
      0 < get_uint16 rec 34 → parseCDRecord rec = .error .multipart) ∧
    (get_uint32 rec 0 = 0x02014b50 → get_uint16 rec 6 ≤ 20 →
      get_uint16 rec 8 &&& 1 = 0 → get_uint16 rec 8 &&& 8 = 0 →
      get_uint16 rec 8 &&& 0xF7F0 = 0 → (get_uint16 rec 10 = 0 ∨ get_uint16 rec 10 = 8) →
      get_uint16 rec 34 = 0 →
      parseCDRecord rec =
        .ok ⟨get_uint16 rec 10, get_uint32 rec 16, get_uint32 rec 20, get_uint32 rec 24,
             get_uint16 rec 28, get_uint16 rec 30, get_uint16 rec 32, get_uint32 rec 42⟩) := by
  refine ⟨?_, ?_, ?_, ?_, ?_, ?_, ?_, ?_⟩
  · intro h1
    rw [parseCDRecord, if_pos h1]
  · intro h1 h2
    rw [parseCDRecord, if_neg (not_not_intro h1), if_pos h2]
  · intro h1 h2 h3
    rw [parseCDRecord, if_neg (not_not_intro h1), if_neg (by omega), if_pos h3]
  · intro h1 h2 h3 h4
    rw [parseCDRecord, if_neg (not_not_intro h1), if_neg (by omega),
        if_neg (not_not_intro h3), if_pos h4]
  · intro h1 h2 h3 h4 h5
    rw [parseCDRecord, if_neg (not_not_intro h1), if_neg (by omega),
        if_neg (not_not_intro h3), if_neg (not_not_intro h4), if_pos h5]
  · intro h1 h2 h3 h4 h5 h6 h7
    rw [parseCDRecord, if_neg (not_not_intro h1), if_neg (by omega),
        if_neg (not_not_intro h3), if_neg (not_not_intro h4), if_neg (not_not_intro h5),
        if_pos ⟨h6, h7⟩]
  · intro h1 h2 h3 h4 h5 h6 h7
    rw [parseCDRecord, if_neg (not_not_intro h1), if_neg (by omega),
        if_neg (not_not_intro h3), if_neg (not_not_intro h4), if_neg (not_not_intro h5),
        if_neg (by tauto), if_pos h7]
  · intro h1 h2 h3 h4 h5 h6 h7
    rw [parseCDRecord, if_neg (not_not_intro h1), if_neg (by omega),
        if_neg (not_not_intro h3), if_neg (not_not_intro h4), if_neg (not_not_intro h5),
        if_neg (by tauto), if_neg (by omega)]

/-- The central-directory record of image A9bytes (a record passing every
check). -/
def cdRecA : Bytes := (A9bytes.drop 30).take 46

/-- Witness for C7: the concrete record cdRecA passes all checks and is
accepted with its fields extracted. -/
theorem tez_C7_witness :
    parseCDRecord cdRecA =
      .ok ⟨get_uint16 cdRecA 10, get_uint32 cdRecA 16, get_uint32 cdRecA 20,
           get_uint32 cdRecA 24, get_uint16 cdRecA 28, get_uint16 cdRecA 30,
           get_uint16 cdRecA 32, get_uint32 cdRecA 42⟩ :=
  (tez_C7_cd_record_checks cdRecA).2.2.2.2.2.2.2 (by decide) (by decide) (by decide)
    (by decide) (by decide) (by decide) (by decide)

/-- Claim C8: the data offset used by open() equals the local-header offset
recorded in the central directory plus 30 plus the filename-length and
extra-field-length values read from that local header (uint32 arithmetic, here
below the wrap bound); resolution fails with the file-header-corrupted error
when the 4 bytes at the local-header offset are not 0x04034b50; and the stream
returned by open() starts at the entry's cached offset field (which the eager
resolution pass of read_central_directory filled in), so open never
re-resolves the header. -/
theorem tez_C8_local_header_resolution (bytes : Bytes) (offset : Nat) (buf : Bytes)
    (hb : readAt bytes offset 30 = some buf) :
    (get_uint32 buf 0 ≠ 0x04034b50 →
      read_header bytes offset = .error .fileHeaderCorrupted) ∧
    (get_uint32 buf 0 = 0x04034b50 →
      offset + 30 + get_uint16 buf 26 + get_uint16 buf 28 < 4294967296 →
      read_header bytes offset = .ok (offset + 30 + get_uint16 buf 26 + get_uint16 buf 28)) ∧
    (∀ f : TEZfile, f.openStored.start_pos = f.offset ∧
      f.openStored.cur_pos = f.offset ∧
      f.openStored.end_pos = f.offset + f.uncompressed_size) := by
  refine ⟨?_, ?_, fun f => ⟨rfl, rfl, rfl⟩⟩
  · intro h
    simp [read_header, hb, h]
  · intro h1 h2
    simp [read_header, hb, h1, Nat.mod_eq_of_lt h2]

/-- The local file header of image A9bytes. -/
def lhRecA : Bytes := A9bytes.take 30

/-- Witness for C8: resolving the local header of A9bytes at offset 0 yields
data offset 0 + 30 + 0 + 0 = 30. -/
theorem tez_C8_witness :
    read_header A9bytes 0 = .ok (0 + 30 + get_uint16 lhRecA 26 + get_uint16 lhRecA 28) :=
  (tez_C8_local_header_resolution A9bytes 0 lhRecA (by decide)).2.1 (by decide) (by decide)

/-- Appending a fresh key to the map does not disturb existing lookups and
makes the new key findable. -/
theorem lookupName_append_single (m : List (Bytes × Nat)) (n : Bytes) (i : Nat)
    (name : Bytes) :
    lookupName (m ++ [(n, i)]) name =
      match lookupName m name with
      | some v => some v
      | none => if n = name then some i else none := by
  induction m with
  | nil => simp [lookupName]
  | cons p r ih =>
    by_cases h : p.1 = name
    · simp [lookupName, h]
    · simp only [List.cons_append, lookupName, if_neg h]
      exact ih

/-- First-wins invariant of the emplace loop: a successful lookup in the map
built from `names` starting at index `i` over a prior map `m` either comes
from `m`, or points at the first occurrence of the name in `names`. -/
theorem emplaceAll_lookup :
    ∀ (names : List Bytes) (i : Nat) (m : List (Bytes × Nat)) (name : Bytes) (j : Nat),
      lookupName (emplaceAll names i m) name = some j →
      lookupName m name = some j ∨
      (lookupName m name = none ∧
        ∃ k, names.get? k = some name ∧ j = i + k ∧
          ∀ q, q < k → names.get? q ≠ some name) := by
  intro names
  induction names with
  | nil => intro i m name j h; exact .inl h
  | cons n r ih =>
    intro i m name j h
    rw [emplaceAll] at h
    cases hm : lookupName m n with
    | none =>
      rw [hm] at h
      rcases ih (i+1) (m ++ [(n, i)]) name j h with h1 | ⟨h1, k, hk1, hk2, hk3⟩
      · rw [lookupName_append_single] at h1
        cases hmn : lookupName m name with
        | some v => rw [hmn] at h1; exact .inl h1
        | none =>
          rw [hmn] at h1
          right
          refine ⟨rfl, 0, ?_, ?_, fun q hq => absurd hq (by omega)⟩
          · by_cases he : n = name
            · rw [he]; rfl
            · rw [if_neg he] at h1; cases h1
          · by_cases he : n = name
            · rw [if_pos he] at h1; cases h1; omega
            · rw [if_neg he] at h1; cases h1
      · rw [lookupName_append_single] at h1
        cases hmn : lookupName m name with
        | some v => rw [hmn] at h1; cases h1
        | none =>
          rw [hmn] at h1
          have hne : n ≠ name := by
            intro he
            rw [if_pos he] at h1; cases h1
          right
          refine ⟨rfl, k + 1, hk1, by omega, fun q hq => ?_⟩
          match q with
          | 0 => simp [hne]
          | q'+1 => exact hk3 q' (by omega)
    | some v =>
      rw [hm] at h
      rcases ih (i+1) m name j h with h1 | ⟨h1, k, hk1, hk2, hk3⟩
      · exact .inl h1
      · have hne : n ≠ name := by
          intro he
          rw [he] at hm
          rw [h1] at hm
          cases hm
        right
        refine ⟨h1, k + 1, hk1, by omega, fun q hq => ?_⟩
        match q with
        | 0 => simp [hne]
        | q'+1 => exact hk3 q' (by omega)

/-- Claim C10: when two or more central-directory records carry the same
filename, both by-name lookups (the sentinel-returning find and the throwing
operator[]) resolve the name to the entry with the lowest index (the first
occurrence in container order, because `unordered_map::emplace` does not
overwrite an existing key), while every entry, duplicates included, stays
reachable by position. -/
theorem tez_C10_first_wins (a : Archive) (names : List Bytes)
    (hm : a.file_map = emplaceAll names 0 []) (name : Bytes) (j : Nat)
    (h : a.find name = some j) :
    names.get? j = some name ∧
    (∀ k, k < j → names.get? k ≠ some name) ∧
    a.getByName name = .ok (a.entries.getD j default) ∧
    (∀ i, i < a.file_count → a.atIdx i = .ok (a.entries.getD i default)) := by
  have hl : lookupName a.file_map name = some j := h
  rw [hm] at hl
  rcases emplaceAll_lookup names 0 [] name j hl with h1 | ⟨_, k, hk1, hk2, hk3⟩
  · cases h1
  · have hjk : j = k := by omega
    subst hjk
    refine ⟨hk1, hk3, ?_, fun i hi => ?_⟩
    · rw [Archive.getByName, show lookupName a.file_map name = some j from h]
    · rw [Archive.atIdx, if_pos hi]

/-- A concrete archive whose three entries carry the duplicate name list
[[97], [98], [97]] ("a", "b", "a"). -/
def dupNames : List Bytes := [[97], [98], [97]]

def dupArchive : Archive :=
  ⟨3,
   [⟨30, 0, 0, 0, some [97], none, 0⟩,
    ⟨60, 0, 0, 0, some [98], none, 0⟩,
    ⟨90, 0, 0, 0, none, none, 0⟩],
   emplaceAll dupNames 0 [],
   none⟩

/-- Witness for C10: in the duplicate-name archive, find "a" resolves to index
0 (the first occurrence, not index 2), operator[] returns entry 0, and the
duplicate at index 2 stays reachable by position. -/
theorem tez_C10_witness :
    dupArchive.find [97] = some 0 ∧
    dupNames.get? 0 = some [97] ∧
    (∀ k, k < 0 → dupNames.get? k ≠ some [97]) ∧
    dupArchive.getByName [97] = .ok (dupArchive.entries.getD 0 default) ∧
    (∀ i, i < dupArchive.file_count →
      dupArchive.atIdx i = .ok (dupArchive.entries.getD i default)) := by
  have h := tez_C10_first_wins dupArchive dupNames rfl [97] 0 (by decide)
  exact ⟨by decide, h.1, h.2.1, h.2.2.1, h.2.2.2⟩

theorem take_cons_drop_one (l : List Nat) (n : Nat) :
    (l.take (n+1)).drop 1 = (l.drop 1).take n := by
  cases l <;> simp

/-- From any reachable mid-read state with the output cursor strictly below
the end, a mismatched checksum forces the read-to-end to fail: the underflow
that produces the final chunk sees the full content in the accumulator and
throws. -/
theorem defReadAll_mismatch (U : Bytes) (crcFn : Bytes → Nat) (desired : Nat)
    (hcrc : crcFn U ≠ desired) :
    ∀ fuel oc (g : Bytes), oc < U.length → g.length ≤ oc →
      g = (U.drop (oc - g.length)).take g.length →
      U.length - oc + g.length ≤ fuel →
      defReadAll U crcFn desired fuel ⟨oc, g, U.take oc⟩ = .error .checksum := by
  intro fuel
  induction fuel with
  | zero => intro oc g hoc _ _ hfuel; omega
  | succ f ih =>
    intro oc g hoc hlen hg hfuel
    cases g with
    | cons b r =>
      simp only [List.length_cons] at hlen hg hfuel
      have hm : oc - (r.length + 1) + 1 = oc - r.length := by omega
      have h1 : r = ((U.drop (oc - (r.length + 1))).take (r.length + 1)).drop 1 := by
        rw [← hg]
        rfl
      rw [take_cons_drop_one, List.drop_drop, hm] at h1
      have ihr := ih oc r hoc (by omega) h1 (by omega)
      rw [defReadAll, defReadByte]
      show (match defReadAll U crcFn desired f ⟨oc, r, U.take oc⟩ with
            | Except.error e => Except.error e
            | Except.ok bs => Except.ok (b :: bs)) = Except.error DefErr.checksum
      rw [ihr]
    | nil =>
      by_cases hsmall : U.length - oc ≤ 4096
      · have hmin : min 4096 (U.length - oc) = U.length - oc := Nat.min_eq_right hsmall
        have hchunk : (U.drop oc).take (U.length - oc) = U.drop oc := by
          rw [show U.length - oc = (U.drop oc).length from (List.length_drop oc U).symm,
              List.take_length]
        have hunder : defUnderflow U crcFn desired ⟨oc, [], U.take oc⟩ = .error .checksum := by
          rw [defUnderflow, if_neg (Nat.ne_of_lt hoc), hmin, hchunk, List.take_append_drop,
              if_pos ⟨by omega, hcrc⟩]
        rw [defReadAll, defReadByte, hunder]
      · have hmin : min 4096 (U.length - oc) = 4096 := Nat.min_eq_left (by omega)
        have hcond : ¬(oc + min 4096 (U.length - oc) = U.length ∧
            crcFn (U.take oc ++ (U.drop oc).take (min 4096 (U.length - oc))) ≠ desired) := by
          rw [hmin]
          intro hand
          omega
        have hunder : defUnderflow U crcFn desired ⟨oc, [], U.take oc⟩ =
            .ok (some ⟨oc + 4096, (U.drop oc).take 4096, U.take (oc + 4096)⟩) := by
          rw [defUnderflow, if_neg (Nat.ne_of_lt hoc), if_neg hcond, hmin, ← List.take_add]
        have hclen : ((U.drop oc).take 4096).length = 4096 := by
          rw [List.length_take, List.length_drop]
          omega
        obtain ⟨c, cr, hc⟩ : ∃ c cr, (U.drop oc).take 4096 = c :: cr := by
          cases hx : (U.drop oc).take 4096 with
          | nil => rw [hx] at hclen; simp at hclen
          | cons c cr => exact ⟨c, cr, rfl⟩
        have hcrlen : cr.length = 4095 := by
          rw [hc] at hclen
          simp at hclen
          omega
        have h2 : cr = ((U.drop oc).take 4096).drop 1 := by
          rw [hc]
          rfl
        rw [show (4096 : Nat) = 4095 + 1 from rfl, take_cons_drop_one, List.drop_drop] at h2
        have hcr : cr = (U.drop (oc + 4096 - cr.length)).take cr.length := by
          rw [hcrlen, show oc + 4096 - 4095 = oc + 1 from by omega]
          exact h2
        have ihr := ih (oc + 4096) cr (by omega) (by omega) hcr (by omega)
        rw [defReadAll, defReadByte, hunder, hc]
        show (match defReadAll U crcFn desired f ⟨oc + 4096, cr, U.take (oc + 4096)⟩ with
              | Except.error e => Except.error e
              | Except.ok bs => Except.ok (c :: bs)) = Except.error DefErr.checksum
        rw [ihr]

/-- Claim C2 (amended): for every deflate entry with nonempty content a
read-to-end of data whose accumulated CRC32 does not match the declared
checksum fails with the integrity error on the read that brings the output
cursor to uncompressed_size, never completing silently.  (The unamended claim
is false only for entries with uncompressed_size = 0, whose checksum the code
never verifies; see the counterexample.) -/
theorem tez_C2_crc_mismatch_fails (U : Bytes) (crcFn : Bytes → Nat) (desired : Nat)
    (h1 : U ≠ []) (h2 : crcFn U ≠ desired) :
    defReadAll U crcFn desired U.length ⟨0, [], []⟩ = .error .checksum := by
  have h0 : 0 < U.length := List.length_pos.mpr h1
  have h := defReadAll_mismatch U crcFn desired h2 U.length 0 [] h0 (by simp) (by simp)
    (by simp)
  exact h

/-- Witness for C2: a 1-byte deflated entry whose accumulated CRC (1) differs
from the declared checksum (0) fails its read-to-end with the checksum error. -/
theorem tez_C2_witness :
    ([7] : Bytes) ≠ [] ∧ ((fun (_ : Bytes) => 1) [7] : Nat) ≠ 0 ∧
    defReadAll [7] (fun _ => 1) 0 1 ⟨0, [], []⟩ = .error .checksum :=
  ⟨by decide, by decide, tez_C2_crc_mismatch_fails [7] (fun _ => 1) 0 (by decide) (by decide)⟩

/-- Counterexample to C2 as stated: a deflate entry with uncompressed_size 0
whose declared checksum (1) differs from the CRC of its (empty) data (0)
completes a read-to-end silently — the output cursor starts at
uncompressed_size, `underflow` reports end-of-data before any CRC check, and
the mismatch is never detected. -/
theorem tez_C2_counterexample :
    defReadAll ([] : Bytes) (fun _ => 0) 1 5 ⟨0, [], []⟩ = .ok [] ∧
    ((fun (_ : Bytes) => 0) ([] : Bytes) : Nat) ≠ 1 :=
  ⟨rfl, by decide⟩
